import Mathlib

/-
Formal model of the Cohere provider adapter in
`src/rig-core/src/providers/cohere.rs` (rig-core), with theorems about its
schema-mapping and response-normalization logic.

Conventions of the embedding:
- `serde_json::Value` is modelled by the inductive `Cohere.Json`; JSON numbers
  carry a `Rat` payload (the adapter never computes with the numbers, it only
  moves them around, so the exact scalar type is irrelevant to the theorems).
- JSON objects are association lists; key lookup returns the first match.
- A Rust function that can panic (`unwrap` / `expect`) is modelled as an
  `Option`-returning function, `none` standing for the panic.
- Fallible operations return `Except`.
-/

set_option autoImplicit false

namespace Cohere

/-- JSON values, mirroring `serde_json::Value`. -/
inductive Json where
  | null : Json
  | bool : Bool → Json
  | num : Rat → Json
  | str : String → Json
  | arr : List Json → Json
  | obj : List (String × Json) → Json

/-- Key lookup in a JSON object field list: first matching key wins. -/
def lookupField (fields : List (String × Json)) (key : String) : Option Json :=
  (fields.find? fun p => p.1 == key).map fun p => p.2

/-- `serde_json::Value::get(key)`: field lookup, `none` on non-objects. -/
def Json.get : Json → String → Option Json
  | .obj fields, key => lookupField fields key
  | _, _ => none

/-- `Value::as_str()`. -/
def asStr : Json → Option String
  | .str s => some s
  | _ => none

/-- `Value::as_array()`. -/
def asArr : Json → Option (List Json)
  | .arr l => some l
  | _ => none

/-- `Value::as_object()`. -/
def asObj : Json → Option (List (String × Json))
  | .obj l => some l
  | _ => none

/-- Error type of the embeddings layer. The variants `BadModel`,
`DocumentError` and `ProviderError` are the ones constructed in
`cohere.rs`. `ResponseParseError` — Modelled from the spec: the error kind,
declared outside this file in `rig-core/src/embeddings.rs`, that surfaces when
the response body matches neither the success schema nor the error schema
(the `?` on the body-decoding step); the spec requires it to be distinct from
`ProviderError`. -/
inductive EmbeddingError where
  | BadModel : String → EmbeddingError
  | DocumentError : String → EmbeddingError
  | ProviderError : String → EmbeddingError
  | ResponseParseError : EmbeddingError

/-- Error type of the completion layer. `ProviderError` is constructed in
`cohere.rs`; `ResponseParseError` — Modelled from the spec: the distinct
parse-failure kind (declared outside this file in
`rig-core/src/completion.rs`) surfaced when the body decodes as neither
schema. -/
inductive CompletionError where
  | ProviderError : String → CompletionError
  | ResponseParseError : CompletionError

/-- The closed enumeration of Cohere embedding models. -/
inductive CohereEmbeddingModel where
  | EmbedEnglishV3
  | EmbedEnglishLightV3
  | EmbedMultilingualV3
  | EmbedMultilingualLightV3
  | EmbedEnglishV2
  | EmbedEnglishLightV2
  | EmbedMultilingualV2
  deriving DecidableEq

/-- `impl FromStr for CohereEmbeddingModel`: an equality chain over the seven
known vendor strings, every other string is a `BadModel` error. -/
def CohereEmbeddingModel.fromStr (s : String) :
    Except EmbeddingError CohereEmbeddingModel :=
  if s = "embed-english-v3.0" then .ok .EmbedEnglishV3
  else if s = "embed-english-light-v3.0" then .ok .EmbedEnglishLightV3
  else if s = "embed-multilingual-v3.0" then .ok .EmbedMultilingualV3
  else if s = "embed-multilingual-light-v3.0" then .ok .EmbedMultilingualLightV3
  else if s = "embed-english-v2.0" then .ok .EmbedEnglishV2
  else if s = "embed-english-light-v2.0" then .ok .EmbedEnglishLightV2
  else if s = "embed-multilingual-v2.0" then .ok .EmbedMultilingualV2
  else .error (.BadModel s)

/-- `impl Display for CohereEmbeddingModel`. -/
def CohereEmbeddingModel.render : CohereEmbeddingModel → String
  | .EmbedEnglishLightV3 => "embed-english-light-v3.0"
  | .EmbedEnglishV3 => "embed-english-v3.0"
  | .EmbedMultilingualLightV3 => "embed-multilingual-light-v3.0"
  | .EmbedMultilingualV3 => "embed-multilingual-v3.0"
  | .EmbedEnglishV2 => "embed-english-v2.0"
  | .EmbedEnglishLightV2 => "embed-english-light-v2.0"
  | .EmbedMultilingualV2 => "embed-multilingual-v2.0"

/-- The seven rendered model strings, in enum declaration order. -/
def knownEmbeddingModelStrings : List String :=
  ["embed-english-v3.0", "embed-english-light-v3.0", "embed-multilingual-v3.0",
   "embed-multilingual-light-v3.0", "embed-english-v2.0",
   "embed-english-light-v2.0", "embed-multilingual-v2.0"]

/-- The `EmbeddingModel` struct. The `client: Client` field (an HTTP handle)
is omitted: it does not participate in any of the pure logic modelled here. -/
structure EmbeddingModel where
  model : CohereEmbeddingModel
  input_type : String

/-- `EmbeddingModel::MAX_DOCUMENTS`. -/
def MAX_DOCUMENTS : Nat := 96

/-- `EmbeddingModel::ndims`. -/
def EmbeddingModel.ndims (m : EmbeddingModel) : Nat :=
  match m.model with
  | .EmbedEnglishV3 => 1024
  | .EmbedEnglishLightV3 => 384
  | .EmbedMultilingualV3 => 1024
  | .EmbedMultilingualLightV3 => 384
  | .EmbedEnglishV2 => 4096
  | .EmbedEnglishLightV2 => 1024
  | .EmbedMultilingualV2 => 768

/-- The generic chat message of `rig-core`'s completion layer. Shape taken
from its use in `cohere.rs` (`message.role`, `message.content`); the struct
itself is declared outside this file. -/
structure GenMessage where
  role : String
  content : String

/-- The Cohere chat message (vendor shape). -/
structure Message where
  role : String
  message : String

/-- `impl From<completion::Message> for Message`: role token mapping plus
verbatim content copy. -/
def messageFrom (message : GenMessage) : Message :=
  { role :=
      if message.role = "system" then "SYSTEM"
      else if message.role = "user" then "USER"
      else if message.role = "assistant" then "CHATBOT"
      else "USER",
    message := message.content }

/-- Claim C4: for every one of the seven enumerated embedding models `m`,
`fromStr (render m) = .ok m`, and every string outside the seven rendered
forms parses to a `BadModel` error carrying that string. -/
theorem c4_model_string_round_trip :
    (∀ m : CohereEmbeddingModel, CohereEmbeddingModel.fromStr m.render = .ok m) ∧
    (∀ s : String, s ∉ knownEmbeddingModelStrings →
      CohereEmbeddingModel.fromStr s = .error (.BadModel s)) := by
  constructor
  · intro m
    cases m <;> rfl
  · intro s hs
    simp only [knownEmbeddingModelStrings, List.mem_cons, List.mem_singleton,
      not_or] at hs
    obtain ⟨h1, h2, h3, h4, h5, h6, h7⟩ := hs
    simp [CohereEmbeddingModel.fromStr, h1, h2, h3, h4, h5, h6, h7]

/-- Claim C4 witness: the round trip at `EmbedEnglishV2`, and parsing of the
unknown string "gpt-4" fails with `BadModel "gpt-4"`. -/
theorem c4_model_string_round_trip_witness :
    CohereEmbeddingModel.fromStr (CohereEmbeddingModel.render .EmbedEnglishV2) =
        .ok .EmbedEnglishV2 ∧
    CohereEmbeddingModel.fromStr "gpt-4" = .error (.BadModel "gpt-4") :=
  ⟨c4_model_string_round_trip.1 .EmbedEnglishV2,
   c4_model_string_round_trip.2 "gpt-4" (by decide)⟩

/-- Claim C5: `ndims` returns, for the seven enumerated embedding models in
declaration order, exactly 1024, 384, 1024, 384, 4096, 1024, 768. -/
theorem c5_ndims_constants :
    ∀ input_type : String,
      EmbeddingModel.ndims ⟨.EmbedEnglishV3, input_type⟩ = 1024 ∧
      EmbeddingModel.ndims ⟨.EmbedEnglishLightV3, input_type⟩ = 384 ∧
      EmbeddingModel.ndims ⟨.EmbedMultilingualV3, input_type⟩ = 1024 ∧
      EmbeddingModel.ndims ⟨.EmbedMultilingualLightV3, input_type⟩ = 384 ∧
      EmbeddingModel.ndims ⟨.EmbedEnglishV2, input_type⟩ = 4096 ∧
      EmbeddingModel.ndims ⟨.EmbedEnglishLightV2, input_type⟩ = 1024 ∧
      EmbeddingModel.ndims ⟨.EmbedMultilingualV2, input_type⟩ = 768 :=
  fun _ => ⟨rfl, rfl, rfl, rfl, rfl, rfl, rfl⟩

/-- Claim C6: role conversion maps "system" to "SYSTEM", "user" to "USER",
"assistant" to "CHATBOT", every other role string to "USER", and copies the
content unchanged into the vendor `message` field. -/
theorem c6_role_mapping :
    (∀ c : String, messageFrom ⟨"system", c⟩ = ⟨"SYSTEM", c⟩) ∧
    (∀ c : String, messageFrom ⟨"user", c⟩ = ⟨"USER", c⟩) ∧
    (∀ c : String, messageFrom ⟨"assistant", c⟩ = ⟨"CHATBOT", c⟩) ∧
    (∀ r c : String, r ≠ "system" → r ≠ "user" → r ≠ "assistant" →
      messageFrom ⟨r, c⟩ = ⟨"USER", c⟩) ∧
    (∀ m : GenMessage, (messageFrom m).message = m.content) := by
  refine ⟨fun c => rfl, fun c => rfl, fun c => rfl, ?_, fun m => rfl⟩
  intro r c h1 h2 h3
  simp [messageFrom, h1, h2, h3]

/-- Claim C6 witness: role "assistant" yields "CHATBOT", and the unrecognized
role "unknown-value" is coerced to "USER". -/
theorem c6_role_mapping_witness :
    messageFrom ⟨"assistant", "hi"⟩ = ⟨"CHATBOT", "hi"⟩ ∧
    messageFrom ⟨"unknown-value", "hi"⟩ = ⟨"USER", "hi"⟩ :=
  ⟨c6_role_mapping.2.2.1 "hi",
   c6_role_mapping.2.2.2.1 "unknown-value" "hi" (by decide) (by decide)
     (by decide)⟩

/-- `struct Citation`. -/
structure Citation where
  start : Nat
  «end» : Nat
  text : String
  document_ids : List String

/-- `struct Document` (`id` plus flattened additional properties). -/
structure Document where
  id : String
  additional_prop : List (String × Json)

/-- `struct SearchQuery`. -/
structure SearchQuery where
  text : String
  generation_id : String

/-- `struct Connector`. -/
structure Connector where
  id : String

/-- `struct SearchResult`. -/
structure SearchResult where
  search_query : SearchQuery
  connector : Connector
  document_ids : List String
  error_message : Option String
  continue_on_failure : Bool

/-- `struct ToolCall`: a tool name with raw JSON parameters. -/
structure ToolCall where
  name : String
  parameters : Json

/-- `struct ChatHistory`. -/
structure ChatHistory where
  role : String
  message : String

/-- `struct CompletionResponse`: the vendor completion response. -/
structure CompletionResponse where
  text : String
  generation_id : String
  citations : List Citation
  documents : List Document
  is_search_required : Option Bool
  search_queries : List SearchQuery
  search_results : List SearchResult
  finish_reason : String
  tool_calls : List ToolCall
  chat_history : List ChatHistory

/-- The generic model choice of `rig-core`'s completion layer (declared
outside this file): either a single tool call (name, parameters) or a plain
message. -/
inductive ModelChoice where
  | ToolCall : String → Json → ModelChoice
  | Message : String → ModelChoice

/-- The generic completion response of `rig-core` (declared outside this
file), specialized to the Cohere raw response: a normalized choice plus the
raw vendor response. -/
structure GenCompletionResponse where
  choice : ModelChoice
  raw_response : CompletionResponse

/-- `impl From<CompletionResponse> for completion::CompletionResponse<...>`:
if `tool_calls` is non-empty, the choice is the first tool call's name and
parameters (the two `first().unwrap()` calls are modelled by `head?`, `none`
standing for the panic); otherwise the choice is the plain `text` message. -/
def completionResponseFrom (response : CompletionResponse) :
    Option GenCompletionResponse :=
  let model_response : Option ModelChoice :=
    if !response.tool_calls.isEmpty then
      response.tool_calls.head?.map fun tc =>
        ModelChoice.ToolCall tc.name tc.parameters
    else
      some (ModelChoice.Message response.text)
  model_response.map fun choice => { choice := choice, raw_response := response }

/-- Claim C1: if `tool_calls` is non-empty the normalized choice is the
tool-call variant carrying exactly the first tool call's name and parameters
(all later tool calls dropped from the choice); if `tool_calls` is empty the
choice is the plain-message variant carrying exactly the `text` field. -/
theorem c1_first_tool_call_choice :
    (∀ (r : CompletionResponse) (tc : ToolCall) (rest : List ToolCall),
      r.tool_calls = tc :: rest →
      completionResponseFrom r =
        some ⟨ModelChoice.ToolCall tc.name tc.parameters, r⟩) ∧
    (∀ r : CompletionResponse, r.tool_calls = [] →
      completionResponseFrom r = some ⟨ModelChoice.Message r.text, r⟩) := by
  constructor
  · intro r tc rest h
    simp [completionResponseFrom, h]
  · intro r h
    simp [completionResponseFrom, h]

/-- Claim C1 witness: a concrete response with two tool calls normalizes to
the first one ("search" with its parameters), and the same response with no
tool calls normalizes to its plain text. -/
theorem c1_first_tool_call_choice_witness :
    (completionResponseFrom
      { text := "hi", generation_id := "g", citations := [], documents := [],
        is_search_required := none, search_queries := [], search_results := [],
        finish_reason := "COMPLETE",
        tool_calls := [⟨"search", Json.obj [("q", Json.str "x")]⟩,
                       ⟨"other", Json.obj []⟩],
        chat_history := [] } =
      some ⟨ModelChoice.ToolCall "search" (Json.obj [("q", Json.str "x")]),
        { text := "hi", generation_id := "g", citations := [], documents := [],
          is_search_required := none, search_queries := [],
          search_results := [], finish_reason := "COMPLETE",
          tool_calls := [⟨"search", Json.obj [("q", Json.str "x")]⟩,
                         ⟨"other", Json.obj []⟩],
          chat_history := [] }⟩) ∧
    (completionResponseFrom
      { text := "hi", generation_id := "g", citations := [], documents := [],
        is_search_required := none, search_queries := [], search_results := [],
        finish_reason := "COMPLETE", tool_calls := [], chat_history := [] } =
      some ⟨ModelChoice.Message "hi",
        { text := "hi", generation_id := "g", citations := [], documents := [],
          is_search_required := none, search_queries := [],
          search_results := [], finish_reason := "COMPLETE", tool_calls := [],
          chat_history := [] }⟩) :=
  ⟨c1_first_tool_call_choice.1 _ ⟨"search", Json.obj [("q", Json.str "x")]⟩
      [⟨"other", Json.obj []⟩] rfl,
   c1_first_tool_call_choice.2 _ rfl⟩

/-- Claim C10: the conversion of a vendor completion response into the
generic response is total — the `first().unwrap()` calls are guarded by the
non-emptiness test, so the `Option`-modelled conversion is always `some` and
the tool-call branch can never panic. -/
theorem c10_normalization_never_panics :
    ∀ r : CompletionResponse, (completionResponseFrom r).isSome = true := by
  intro r
  cases h : r.tool_calls with
  | nil => simp [completionResponseFrom, h]
  | cons tc rest => simp [completionResponseFrom, h]

/-- serde: deserialize a `String`. -/
def decodeString : Json → Option String
  | .str s => some s
  | _ => none

/-- serde: deserialize a `bool`. -/
def decodeBool : Json → Option Bool
  | .bool b => some b
  | _ => none

/-- serde: deserialize a `u32` (a JSON number that is an integer in range). -/
def decodeU32 : Json → Option Nat
  | .num q => if q.den = 1 ∧ 0 ≤ q.num ∧ q.num < 4294967296
              then some q.num.toNat else none
  | _ => none

/-- serde: deserialize an `f64` (any JSON number, in this model). -/
def decodeF64 : Json → Option Rat
  | .num q => some q
  | _ => none

/-- serde: deserialize every element of a JSON array, failing if any fails. -/
def decodeListWith {α : Type} (dec : Json → Option α) : List Json → Option (List α)
  | [] => some []
  | j :: rest =>
    match dec j, decodeListWith dec rest with
    | some a, some l => some (a :: l)
    | _, _ => none

/-- serde: deserialize a `Vec<α>` from a JSON array. -/
def decodeList {α : Type} (dec : Json → Option α) : Json → Option (List α)
  | .arr xs => decodeListWith dec xs
  | _ => none

/-- serde: a required struct field — must be present and decode. -/
def reqField {α : Type} (fields : List (String × Json)) (key : String)
    (dec : Json → Option α) : Option α :=
  (lookupField fields key).bind dec

/-- serde: an `Option<α>` struct field — missing or `null` gives `none`, a
present value must decode. -/
def optField {α : Type} (fields : List (String × Json)) (key : String)
    (dec : Json → Option α) : Option (Option α) :=
  match lookupField fields key with
  | none => some none
  | some .null => some none
  | some j => (dec j).map some

/-- serde: a `#[serde(default)]` struct field — missing gives the default, a
present value must decode. -/
def defField {α : Type} (fields : List (String × Json)) (key : String)
    (dec : Json → Option α) (dflt : α) : Option α :=
  match lookupField fields key with
  | none => some dflt
  | some j => dec j

/-- `struct ApiVersion`. -/
structure ApiVersion where
  version : String
  is_deprecated : Option Bool
  is_experimental : Option Bool

/-- serde derive for `ApiVersion`. -/
def decodeApiVersion : Json → Option ApiVersion
  | .obj fields => do
    let v ← reqField fields "version" decodeString
    let d ← optField fields "is_deprecated" decodeBool
    let e ← optField fields "is_experimental" decodeBool
    some ⟨v, d, e⟩
  | _ => none

/-- `struct BilledUnits` (all four counters default to 0). -/
structure BilledUnits where
  input_tokens : Nat
  output_tokens : Nat
  search_units : Nat
  classifications : Nat

/-- serde derive for `BilledUnits`. -/
def decodeBilledUnits : Json → Option BilledUnits
  | .obj fields => do
    let a ← defField fields "input_tokens" decodeU32 0
    let b ← defField fields "output_tokens" decodeU32 0
    let c ← defField fields "search_units" decodeU32 0
    let d ← defField fields "classifications" decodeU32 0
    some ⟨a, b, c, d⟩
  | _ => none

/-- `struct Meta`. -/
structure Meta where
  api_version : ApiVersion
  billed_units : BilledUnits
  warnings : List String

/-- serde derive for `Meta`. -/
def decodeMeta : Json → Option Meta
  | .obj fields => do
    let v ← reqField fields "api_version" decodeApiVersion
    let b ← reqField fields "billed_units" decodeBilledUnits
    let w ← defField fields "warnings" (decodeList decodeString) []
    some ⟨v, b, w⟩
  | _ => none

/-- `struct EmbeddingResponse`: the vendor embedding success payload. -/
structure EmbeddingResponse where
  response_type : Option String
  id : String
  embeddings : List (List Rat)
  texts : List String
  meta : Option Meta

/-- serde derive for `EmbeddingResponse` (required `id`, `embeddings`,
`texts`; optional `response_type` and `meta`). -/
def decodeEmbeddingResponse : Json → Option EmbeddingResponse
  | .obj fields => do
    let rt ← optField fields "response_type" decodeString
    let i ← reqField fields "id" decodeString
    let em ← reqField fields "embeddings" (decodeList (decodeList decodeF64))
    let tx ← reqField fields "texts" (decodeList decodeString)
    let mt ← optField fields "meta" decodeMeta
    some ⟨rt, i, em, tx, mt⟩
  | _ => none

/-- `struct ApiErrorResponse`: the vendor error envelope. -/
structure ApiErrorResponse where
  message : String

/-- serde derive for `ApiErrorResponse`: an object with a string `message`
field (other fields ignored). -/
def decodeApiErrorResponse : Json → Option ApiErrorResponse
  | .obj fields => (reqField fields "message" decodeString).map fun m => ⟨m⟩
  | _ => none

/-- `enum ApiResponse<T>`: success payload or vendor error envelope. -/
inductive ApiResponse (T : Type) where
  | Ok : T → ApiResponse T
  | Err : ApiErrorResponse → ApiResponse T

/-- serde `#[serde(untagged)]` deserialization of `ApiResponse<T>`: try the
success schema first, then the error schema; `none` when the body matches
neither. -/
def decodeApiResponse {T : Type} (decT : Json → Option T) (j : Json) :
    Option (ApiResponse T) :=
  match decT j with
  | some t => some (.Ok t)
  | none => (decodeApiErrorResponse j).map .Err

/-- The generic `embeddings::Embedding` of `rig-core` (declared outside this
file): a document paired with its embedding vector. -/
structure Embedding where
  document : String
  vec : List Rat

/-- The `match response` part of `EmbeddingModel::embed_documents`: on
success, exact count match is required, then embeddings are zipped with their
documents in order; on an error envelope the vendor message is surfaced as a
`ProviderError`. -/
def embed_documents_result (documents : List String)
    (response : ApiResponse EmbeddingResponse) :
    Except EmbeddingError (List Embedding) :=
  match response with
  | .Ok r =>
    if r.embeddings.length ≠ documents.length then
      .error (.DocumentError
        ("Expected " ++ toString documents.length ++ " embeddings, got " ++
          toString r.embeddings.length))
    else
      .ok ((r.embeddings.zip documents).map fun p =>
        { document := p.2, vec := p.1 })
  | .Err e => .error (.ProviderError e.message)

/-- `EmbeddingModel::embed_documents`, from the decoded response body on: the
body is decoded as the untagged `ApiResponse<EmbeddingResponse>` (a body
matching neither schema surfaces the parse-failure error kind via `?`), then
processed by `embed_documents_result`. -/
def embed_documents (documents : List String) (body : Json) :
    Except EmbeddingError (List Embedding) :=
  match decodeApiResponse decodeEmbeddingResponse body with
  | none => .error .ResponseParseError
  | some r => embed_documents_result documents r

/-- Claim C2: on a success envelope whose embedding count differs from the
document count, `embed_documents` fails with a `DocumentError` whose message
cites both counts (so no partial or truncated result is ever returned). -/
theorem c2_count_mismatch_error :
    ∀ (documents : List String) (r : EmbeddingResponse),
      r.embeddings.length ≠ documents.length →
      embed_documents_result documents (.Ok r) =
        .error (.DocumentError
          ("Expected " ++ toString documents.length ++ " embeddings, got " ++
            toString r.embeddings.length)) ∧
      ∀ body : Json, decodeEmbeddingResponse body = some r →
        embed_documents documents body =
          .error (.DocumentError
            ("Expected " ++ toString documents.length ++ " embeddings, got " ++
              toString r.embeddings.length)) := by
  intro documents r h
  constructor
  · simp [embed_documents_result, h]
  · intro body hbody
    simp [embed_documents, decodeApiResponse, hbody, embed_documents_result, h]

/-- Claim C2 witness: three documents against a success body carrying two
embeddings fail with the mismatch message citing 3 and 2. -/
theorem c2_count_mismatch_error_witness :
    embed_documents_result ["a", "b", "c"]
      (.Ok ⟨none, "id0", [[1], [2]], ["a", "b"], none⟩) =
      .error (.DocumentError "Expected 3 embeddings, got 2") ∧
    embed_documents ["a", "b", "c"]
      (Json.obj [("id", Json.str "id0"),
                 ("embeddings", Json.arr [Json.arr [Json.num 1],
                                          Json.arr [Json.num 2]]),
                 ("texts", Json.arr [Json.str "a", Json.str "b"])]) =
      .error (.DocumentError "Expected 3 embeddings, got 2") :=
  have h := c2_count_mismatch_error ["a", "b", "c"]
    ⟨none, "id0", [[1], [2]], ["a", "b"], none⟩ (by decide)
  ⟨h.1, h.2 _ rfl⟩

/-- Claim C3: on a success envelope whose embedding count equals the document
count, `embed_documents` returns a same-length list where entry `i` pairs
`documents[i]` with `response.embeddings[i]`, preserving input order. -/
theorem c3_zip_preserves_order :
    ∀ (documents : List String) (r : EmbeddingResponse),
      r.embeddings.length = documents.length →
      ∃ l, embed_documents_result documents (.Ok r) = .ok l ∧
        (∀ body : Json, decodeEmbeddingResponse body = some r →
          embed_documents documents body = .ok l) ∧
        l.length = documents.length ∧
        ∀ i, i < documents.length →
          ∃ e : Embedding, l[i]? = some e ∧ documents[i]? = some e.document ∧
            r.embeddings[i]? = some e.vec := by
  intro documents r h
  refine ⟨(r.embeddings.zip documents).map fun p => ⟨p.2, p.1⟩, ?_, ?_, ?_, ?_⟩
  · simp [embed_documents_result, h]
  · intro body hbody
    simp [embed_documents, decodeApiResponse, hbody, embed_documents_result, h]
  · simp [List.length_zip, h]
  · intro i hi
    have hie : i < r.embeddings.length := h ▸ hi
    refine ⟨⟨documents[i], r.embeddings[i]⟩, ?_, ?_, ?_⟩
    · rw [List.getElem?_map]
      have hz : (r.embeddings.zip documents)[i]? =
          some (r.embeddings[i], documents[i]) := by
        rw [List.getElem?_zip_eq_some]
        exact ⟨List.getElem?_eq_getElem hie, List.getElem?_eq_getElem hi⟩
      rw [hz]
      rfl
    · exact List.getElem?_eq_getElem hi
    · exact List.getElem?_eq_getElem hie

/-- Claim C3 witness: two documents against two embeddings produce the two
pairs in input order. -/
theorem c3_zip_preserves_order_witness :
    ∃ l, embed_documents_result ["a", "b"]
        (ApiResponse.Ok ⟨none, "id0", [[1, 2], [3, 4]], ["a", "b"], none⟩) =
          .ok l ∧
      (∀ body : Json,
        decodeEmbeddingResponse body =
          some ⟨none, "id0", [[1, 2], [3, 4]], ["a", "b"], none⟩ →
        embed_documents ["a", "b"] body = .ok l) ∧
      l.length = 2 ∧
      ∀ i, i < 2 →
        ∃ e : Embedding, l[i]? = some e ∧
          (["a", "b"] : List String)[i]? = some e.document ∧
          ([[1, 2], [3, 4]] : List (List Rat))[i]? = some e.vec :=
  c3_zip_preserves_order ["a", "b"]
    ⟨none, "id0", [[1, 2], [3, 4]], ["a", "b"], none⟩ rfl

/-- `COHERE_API_BASE_URL`. -/
def COHERE_API_BASE_URL : String := "https://api.cohere.ai"

/-- One left-to-right pass replacing each non-overlapping occurrence of
`"//"` by `"/"`: the effect of Rust's `str::replace("//", "/")`. -/
def collapseDoubleSlash : List Char → List Char
  | [] => []
  | [c] => [c]
  | c1 :: c2 :: rest =>
    if c1 = '/' ∧ c2 = '/' then '/' :: collapseDoubleSlash rest
    else c1 :: collapseDoubleSlash (c2 :: rest)

/-- Whether a character list contains two consecutive slashes. -/
def hasDoubleSlash : List Char → Bool
  | c1 :: c2 :: rest =>
    if c1 = '/' ∧ c2 = '/' then true else hasDoubleSlash (c2 :: rest)
  | _ => false

/-- Whether a character list contains three consecutive slashes. -/
def hasTripleSlash : List Char → Bool
  | c1 :: c2 :: c3 :: rest =>
    if c1 = '/' ∧ c2 = '/' ∧ c3 = '/' then true
    else hasTripleSlash (c2 :: c3 :: rest)
  | _ => false

/-- `Client::post`, URL construction part:
`format!("{}/{}", base_url, path).replace("//", "/")`. -/
def post_url (base_url path : String) : String :=
  String.mk (collapseDoubleSlash (base_url ++ "/" ++ path).toList)

theorem collapse_head (c : Char) (t : List Char) :
    ∃ u, collapseDoubleSlash (c :: t) = c :: u := by
  cases t with
  | nil => exact ⟨[], rfl⟩
  | cons c2 t2 =>
    by_cases hc : c = '/' ∧ c2 = '/'
    · refine ⟨collapseDoubleSlash t2, ?_⟩
      rw [collapseDoubleSlash, if_pos hc, hc.1]
    · exact ⟨collapseDoubleSlash (c2 :: t2),
        by rw [collapseDoubleSlash, if_neg hc]⟩

theorem collapse_no_double (s : List Char) (h : hasTripleSlash s = false) :
    hasDoubleSlash (collapseDoubleSlash s) = false := by
  induction s using collapseDoubleSlash.induct with
  | case1 => rfl
  | case2 c => rfl
  | case3 c1 c2 rest hc ih =>
    rw [collapseDoubleSlash, if_pos hc]
    cases rest with
    | nil => rfl
    | cons c3 t =>
      have hc3 : ¬ (c3 = '/') := by
        intro hh
        rw [hasTripleSlash, if_pos ⟨hc.1, hc.2, hh⟩] at h
        exact absurd h (by simp)
      have ht : hasTripleSlash (c3 :: t) = false := by
        rw [hasTripleSlash, if_neg (by tauto)] at h
        cases t with
        | nil => rfl
        | cons c4 t4 =>
          rw [hasTripleSlash, if_neg (by tauto)] at h
          exact h
      obtain ⟨u, hu⟩ := collapse_head c3 t
      rw [hu, hasDoubleSlash, if_neg (by tauto), ← hu]
      exact ih ht
  | case4 c1 c2 rest hc ih =>
    rw [collapseDoubleSlash, if_neg hc]
    have ht : hasTripleSlash (c2 :: rest) = false := by
      cases rest with
      | nil => rfl
      | cons c3 t =>
        rw [hasTripleSlash, if_neg (by tauto)] at h
        exact h
    obtain ⟨u, hu⟩ := collapse_head c2 rest
    rw [hu, hasDoubleSlash, if_neg (by tauto), ← hu]
    exact ih ht

/-- Claim C8 counterexample: at path "/v1/embed" against the production base
URL, the built URL is "https:/api.cohere.ai/v1/embed" — the `replace` hits
the scheme's "//" as well, so the base URL is not left intact as the claim
states. -/
theorem c8_counterexample :
    post_url COHERE_API_BASE_URL "/v1/embed" = "https:/api.cohere.ai/v1/embed" ∧
    post_url COHERE_API_BASE_URL "/v1/embed" ≠
      "https://api.cohere.ai/v1/embed" := by
  exact ⟨by decide, by decide⟩

/-- Claim C8 (amended): `post(path)` builds the request at the concatenation
`base_url ++ "/" ++ path` with every non-overlapping occurrence of "//"
replaced by "/" in one left-to-right pass over the whole URL — including the
scheme's "//", which is therefore also collapsed rather than left intact.
When the concatenation has no three consecutive slashes, the result has no
duplicate separator left. -/
theorem c8_collapse_includes_scheme :
    (∀ base path : String, post_url base path =
      String.mk (collapseDoubleSlash (base ++ "/" ++ path).toList)) ∧
    (∀ s : List Char, hasTripleSlash s = false →
      hasDoubleSlash (collapseDoubleSlash s) = false) ∧
    post_url COHERE_API_BASE_URL "/v1/embed" =
      "https:/api.cohere.ai/v1/embed" :=
  ⟨fun _ _ => rfl, collapse_no_double, by decide⟩

/-- Claim C8 witness: the collapsing pass applied to a concrete URL string
with a duplicate separator leaves no duplicate separator. -/
theorem c8_collapse_includes_scheme_witness :
    hasTripleSlash ("https://api.cohere.ai//v1/embed".toList) = false ∧
    hasDoubleSlash
      (collapseDoubleSlash ("https://api.cohere.ai//v1/embed".toList)) =
      false :=
  ⟨by decide,
   c8_collapse_includes_scheme.2.1 ("https://api.cohere.ai//v1/embed".toList)
     (by decide)⟩

/-- The generic `completion::ToolDefinition` of `rig-core` (declared outside
this file): name, description and a JSON-schema-like `parameters` value. -/
structure GenToolDefinition where
  name : String
  description : String
  parameters : Json

/-- `struct Parameter`: the vendor's flat parameter definition. -/
structure Parameter where
  description : String
  type : String
  required : Bool

/-- `struct ToolDefinition`: the vendor tool definition; the parameter map is
modelled as an association list. -/
structure ToolDefinition where
  name : String
  description : String
  parameter_definitions : List (String × Parameter)

/-- `convert_type_str`: identity on the six JSON-schema primitive names,
"string" for anything else. -/
def convert_type_str (t : String) : String :=
  if t = "string" then "string"
  else if t = "number" then "number"
  else if t = "integer" then "integer"
  else if t = "boolean" then "boolean"
  else if t = "array" then "array"
  else if t = "object" then "object"
  else "string"

/-- `convert_type`: single string via `convert_type_str`; array: first entry
whose `as_str` is not `Some("null")`, then `as_str`, default "string";
anything else "string". -/
def convert_type (t : Json) : String :=
  match t with
  | .str s => convert_type_str s
  | .arr types =>
    convert_type_str
      ((((types.find? fun t => decide (asStr t ≠ some "null")).bind
        asStr).getD "string"))
  | _ => "string"

/-- The `maybe_required` extraction: `parameters.required` as an array,
keeping only its string entries; absent or non-array gives the empty list. -/
def maybe_required (params : Json) : List String :=
  (((params.get "required").bind asArr).map fun l => l.filterMap asStr).getD []

/-- One entry of the parameter-definition conversion: the `expect` calls on a
missing/non-string description or a missing type are modelled by `none`. -/
def convertParam (required : List String) (argname : String) (argdef : Json) :
    Option Parameter := do
  let dj ← argdef.get "description"
  let d ← asStr dj
  let ty ← argdef.get "type"
  some { description := d, type := convert_type ty,
         required := required.contains argname }

/-- The parameter-definition conversion over all properties. -/
def convertParams (required : List String) :
    List (String × Json) → Option (List (String × Parameter))
  | [] => some []
  | (n, a) :: rest => do
    let p ← convertParam required n a
    let ps ← convertParams required rest
    some ((n, p) :: ps)

/-- `impl From<completion::ToolDefinition> for ToolDefinition`: the `expect`
calls on a missing or non-object `properties` are modelled by `none`. -/
def toolDefinitionFrom (tool : GenToolDefinition) : Option ToolDefinition := do
  let pj ← tool.parameters.get "properties"
  let props ← asObj pj
  let defs ← convertParams (maybe_required tool.parameters) props
  some { name := tool.name, description := tool.description,
         parameter_definitions := defs }

/-- Modelled from the spec: the six JSON-schema primitive type names mapped
identically by the type conversion. -/
def spec_primitive_names : List String :=
  ["string", "number", "integer", "boolean", "array", "object"]

/-- Modelled from the spec (refinement side of claim C7): a single string
maps known primitive names identically and anything else to "string"; an
array picks the first entry that is not the string "null" and maps it the
same way, defaulting to "string" when none is found or the array is empty. -/
def spec_convert_type : Json → String
  | .str s => if s ∈ spec_primitive_names then s else "string"
  | .arr ts =>
    match ts.find? fun t =>
        match t with
        | .str s => decide (s ≠ "null")
        | _ => true with
    | some (.str s) => if s ∈ spec_primitive_names then s else "string"
    | _ => "string"
  | _ => "string"

theorem convert_type_str_eq (s : String) :
    convert_type_str s = if s ∈ spec_primitive_names then s else "string" := by
  simp only [convert_type_str, spec_primitive_names, List.mem_cons,
    List.mem_singleton, List.not_mem_nil, or_false]
  split_ifs <;> simp_all

theorem find?_not_null_pred_eq (ts : List Json) :
    (ts.find? fun t => decide (asStr t ≠ some "null")) =
      (ts.find? fun t =>
        match t with
        | .str s => decide (s ≠ "null")
        | _ => true) := by
  congr 1
  funext t
  cases t <;> simp [asStr]

theorem convert_type_eq_spec (j : Json) :
    convert_type j = spec_convert_type j := by
  cases j with
  | str s => simp [convert_type, spec_convert_type, convert_type_str_eq]
  | arr ts =>
    show convert_type_str _ = spec_convert_type (.arr ts)
    rw [find?_not_null_pred_eq]
    cases hf : ts.find? fun t =>
        match t with
        | .str s => decide (s ≠ "null")
        | _ => true with
    | none =>
      simp only [spec_convert_type]
      rw [hf]
      rfl
    | some t =>
      simp only [spec_convert_type]
      rw [hf]
      cases t <;> first
        | rfl
        | simp [asStr, convert_type_str_eq]
  | null => rfl
  | bool b => rfl
  | num q => rfl
  | obj fs => rfl

theorem asStr_eq_some_iff (b : Json) (n : String) :
    asStr b = some n ↔ b = Json.str n := by
  cases b <;> simp [asStr]

theorem mem_filterMap_asStr (l : List Json) (n : String) :
    n ∈ l.filterMap asStr ↔ Json.str n ∈ l := by
  rw [List.mem_filterMap]
  constructor
  · rintro ⟨b, hb, hbs⟩
    rw [asStr_eq_some_iff] at hbs
    exact hbs ▸ hb
  · intro h
    exact ⟨Json.str n, h, rfl⟩

theorem contains_iff_mem_required (params : Json) (n : String) :
    (maybe_required params).contains n = true ↔
      ∃ l, params.get "required" = some (Json.arr l) ∧ Json.str n ∈ l := by
  cases hr : params.get "required" with
  | none =>
    have hlhs : maybe_required params = [] := by
      unfold maybe_required
      rw [hr]
      rfl
    simp [hlhs, hr]
  | some v =>
    cases v with
    | arr l =>
      have hlhs : maybe_required params = l.filterMap asStr := by
        unfold maybe_required
        rw [hr]
        rfl
      rw [hlhs]
      constructor
      · intro hc
        exact ⟨l, rfl, (mem_filterMap_asStr l n).mp (List.elem_iff.mp hc)⟩
      · rintro ⟨l2, hl2, hmem⟩
        injection hl2 with h
        injection h with h2
        subst h2
        exact List.elem_iff.mpr ((mem_filterMap_asStr _ n).mpr hmem)
    | null =>
      have hlhs : maybe_required params = [] := by
        unfold maybe_required
        rw [hr]
        rfl
      simp [hlhs, hr]
    | bool b =>
      have hlhs : maybe_required params = [] := by
        unfold maybe_required
        rw [hr]
        rfl
      simp [hlhs, hr]
    | num q =>
      have hlhs : maybe_required params = [] := by
        unfold maybe_required
        rw [hr]
        rfl
      simp [hlhs, hr]
    | str s =>
      have hlhs : maybe_required params = [] := by
        unfold maybe_required
        rw [hr]
        rfl
      simp [hlhs, hr]
    | obj fs =>
      have hlhs : maybe_required params = [] := by
        unfold maybe_required
        rw [hr]
        rfl
      simp [hlhs, hr]

theorem convertParams_sound (required : List String)
    (props : List (String × Json)) :
    (∀ p ∈ props, (∃ d, p.2.get "description" = some (Json.str d)) ∧
      (∃ ty, p.2.get "type" = some ty)) →
    ∃ defs, convertParams required props = some defs ∧
      defs.length = props.length ∧
      ∀ n a, (n, a) ∈ props → ∃ d ty,
        a.get "description" = some (Json.str d) ∧ a.get "type" = some ty ∧
        (n, ⟨d, convert_type ty, required.contains n⟩) ∈ defs := by
  induction props with
  | nil => intro _; exact ⟨[], rfl, rfl, by simp⟩
  | cons p rest ih =>
    intro hp
    obtain ⟨⟨d, hd⟩, ⟨ty, hty⟩⟩ := hp p (List.mem_cons_self p rest)
    obtain ⟨defs, hdefs, hlen, hmem⟩ :=
      ih fun q hq => hp q (List.mem_cons_of_mem p hq)
    refine ⟨(p.1, ⟨d, convert_type ty, required.contains p.1⟩) :: defs,
      ?_, by simp [hlen], ?_⟩
    · obtain ⟨n, a⟩ := p
      simp only at hd hty
      simp [convertParams, convertParam, hd, hty, asStr, hdefs]
    · intro n a hna
      rcases List.mem_cons.mp hna with heq | hmem2
      · obtain ⟨n0, a0⟩ := p
        obtain ⟨rfl, rfl⟩ := Prod.mk.injEq .. ▸ heq
        simp only at hd hty
        exact ⟨d, ty, hd, hty, List.mem_cons_self _ _⟩
      · obtain ⟨d2, ty2, h1, h2, h3⟩ := hmem n a hmem2
        exact ⟨d2, ty2, h1, h2, List.mem_cons_of_mem _ h3⟩

/-- Claim C7: when `parameters.properties` is an object and every property
has a string description and a present type, the conversion yields one
vendor parameter per property whose type follows the spec's conversion rules
(identity on the six primitive names, "string" otherwise; for an array type,
the first entry that is not the string "null", defaulting to "string") and
whose required flag is true exactly when the name appears as a string in
`parameters.required` (absent list: nothing required). -/
theorem c7_tool_definition_conversion :
    ∀ (tool : GenToolDefinition) (props : List (String × Json)),
      tool.parameters.get "properties" = some (Json.obj props) →
      (∀ p ∈ props, (∃ d, p.2.get "description" = some (Json.str d)) ∧
        (∃ ty, p.2.get "type" = some ty)) →
      ∃ defs, toolDefinitionFrom tool =
          some ⟨tool.name, tool.description, defs⟩ ∧
        defs.length = props.length ∧
        ∀ n a, (n, a) ∈ props → ∃ d ty,
          a.get "description" = some (Json.str d) ∧ a.get "type" = some ty ∧
          (n, ⟨d, spec_convert_type ty,
            (maybe_required tool.parameters).contains n⟩) ∈ defs ∧
          ((maybe_required tool.parameters).contains n = true ↔
            ∃ l, tool.parameters.get "required" = some (Json.arr l) ∧
              Json.str n ∈ l) := by
  intro tool props hprops hp
  obtain ⟨defs, hdefs, hlen, hmem⟩ :=
    convertParams_sound (maybe_required tool.parameters) props hp
  refine ⟨defs, ?_, hlen, ?_⟩
  · simp [toolDefinitionFrom, hprops, asObj, hdefs]
  · intro n a hna
    obtain ⟨d, ty, h1, h2, h3⟩ := hmem n a hna
    refine ⟨d, ty, h1, h2, ?_, contains_iff_mem_required _ _⟩
    rw [← convert_type_eq_spec]
    exact h3

/-- Claim C7 witness: a tool with one property "x" of type "string",
description "d", required list ["x"], converts to one parameter named "x"
with type "string" and required flag true. -/
theorem c7_tool_definition_conversion_witness :
    ∃ defs, toolDefinitionFrom
        ⟨"t", "desc", Json.obj
          [("properties", Json.obj
             [("x", Json.obj [("type", Json.str "string"),
                              ("description", Json.str "d")])]),
           ("required", Json.arr [Json.str "x"])]⟩ =
        some ⟨"t", "desc", defs⟩ ∧
      defs.length = 1 ∧
      ∀ n a, (n, a) ∈
          [("x", Json.obj [("type", Json.str "string"),
                           ("description", Json.str "d")])] →
        ∃ d ty, a.get "description" = some (Json.str d) ∧
          a.get "type" = some ty ∧
          (n, ⟨d, spec_convert_type ty,
            (maybe_required (Json.obj
              [("properties", Json.obj
                 [("x", Json.obj [("type", Json.str "string"),
                                  ("description", Json.str "d")])]),
               ("required", Json.arr [Json.str "x"])])).contains n⟩) ∈ defs ∧
          ((maybe_required (Json.obj
              [("properties", Json.obj
                 [("x", Json.obj [("type", Json.str "string"),
                                  ("description", Json.str "d")])]),
               ("required", Json.arr [Json.str "x"])])).contains n = true ↔
            ∃ l, (Json.obj
              [("properties", Json.obj
                 [("x", Json.obj [("type", Json.str "string"),
                                  ("description", Json.str "d")])]),
               ("required", Json.arr [Json.str "x"])]).get "required" =
                some (Json.arr l) ∧ Json.str n ∈ l) :=
  c7_tool_definition_conversion
    ⟨"t", "desc", Json.obj
      [("properties", Json.obj
         [("x", Json.obj [("type", Json.str "string"),
                          ("description", Json.str "d")])]),
       ("required", Json.arr [Json.str "x"])]⟩
    [("x", Json.obj [("type", Json.str "string"),
                     ("description", Json.str "d")])]
    rfl
    (fun p hp => by
      rw [List.mem_singleton] at hp
      subst hp
      exact ⟨⟨"d", rfl⟩, ⟨Json.str "string", rfl⟩⟩)

/-- serde derive for `Citation`. -/
def decodeCitation : Json → Option Citation
  | .obj fields => do
    let s ← reqField fields "start" decodeU32
    let e ← reqField fields "end" decodeU32
    let t ← reqField fields "text" decodeString
    let ds ← reqField fields "document_ids" (decodeList decodeString)
    some ⟨s, e, t, ds⟩
  | _ => none

/-- serde derive for `Document`: required `id`, all other fields flattened
into `additional_prop`. -/
def decodeDocument : Json → Option Document
  | .obj fields => do
    let i ← reqField fields "id" decodeString
    some ⟨i, fields.filter fun p => !(p.1 == "id")⟩
  | _ => none

/-- serde derive for `SearchQuery`. -/
def decodeSearchQuery : Json → Option SearchQuery
  | .obj fields => do
    let t ← reqField fields "text" decodeString
    let g ← reqField fields "generation_id" decodeString
    some ⟨t, g⟩
  | _ => none

/-- serde derive for `Connector`. -/
def decodeConnector : Json → Option Connector
  | .obj fields => do
    let i ← reqField fields "id" decodeString
    some ⟨i⟩
  | _ => none

/-- serde derive for `SearchResult`. -/
def decodeSearchResult : Json → Option SearchResult
  | .obj fields => do
    let q ← reqField fields "search_query" decodeSearchQuery
    let c ← reqField fields "connector" decodeConnector
    let ds ← reqField fields "document_ids" (decodeList decodeString)
    let em ← optField fields "error_message" decodeString
    let cf ← defField fields "continue_on_failure" decodeBool false
    some ⟨q, c, ds, em, cf⟩
  | _ => none

/-- serde derive for `ToolCall`: required `name` string and required raw JSON
`parameters`. -/
def decodeToolCall : Json → Option ToolCall
  | .obj fields => do
    let n ← reqField fields "name" decodeString
    let p ← lookupField fields "parameters"
    some ⟨n, p⟩
  | _ => none

/-- serde derive for `ChatHistory`. -/
def decodeChatHistory : Json → Option ChatHistory
  | .obj fields => do
    let r ← reqField fields "role" decodeString
    let m ← reqField fields "message" decodeString
    some ⟨r, m⟩
  | _ => none

/-- serde derive for `CompletionResponse` (required `text`, `generation_id`,
`finish_reason`; everything else optional or defaulted). -/
def decodeCompletionResponse : Json → Option CompletionResponse
  | .obj fields => do
    let t ← reqField fields "text" decodeString
    let g ← reqField fields "generation_id" decodeString
    let cs ← defField fields "citations" (decodeList decodeCitation) []
    let ds ← defField fields "documents" (decodeList decodeDocument) []
    let isr ← optField fields "is_search_required" decodeBool
    let sq ← defField fields "search_queries" (decodeList decodeSearchQuery) []
    let sr ← defField fields "search_results" (decodeList decodeSearchResult) []
    let fr ← reqField fields "finish_reason" decodeString
    let tc ← defField fields "tool_calls" (decodeList decodeToolCall) []
    let ch ← defField fields "chat_history" (decodeList decodeChatHistory) []
    some ⟨t, g, cs, ds, isr, sq, sr, fr, tc, ch⟩
  | _ => none

/-- `CompletionModel::completion`, from the decoded response body on: the
body is decoded as the untagged `ApiResponse<CompletionResponse>` (`none`
of the outer `Option` stands for the panic modelled in
`completionResponseFrom`; a body matching neither schema surfaces the
parse-failure error kind via `?`), a success payload is normalized, an error
envelope becomes a `ProviderError` with the vendor message verbatim. -/
def completion_result (body : Json) :
    Option (Except CompletionError GenCompletionResponse) :=
  match decodeApiResponse decodeCompletionResponse body with
  | none => some (.error .ResponseParseError)
  | some (.Ok c) => (completionResponseFrom c).map .ok
  | some (.Err e) => some (.error (.ProviderError e.message))

/-- Claim C9: a body that decodes as neither the success schema nor the
error schema surfaces the parse-failure kind, distinct from the
provider-error kind, in both `embed_documents` and `completion`; a provider
error arises only when the success schema fails but the error envelope
parses, and it carries the vendor message verbatim. -/
theorem c9_envelope_classification :
    (∀ (documents : List String) (body : Json),
      decodeEmbeddingResponse body = none →
      decodeApiErrorResponse body = none →
      embed_documents documents body = .error .ResponseParseError) ∧
    (∀ body : Json,
      decodeCompletionResponse body = none →
      decodeApiErrorResponse body = none →
      completion_result body = some (.error .ResponseParseError)) ∧
    (∀ (documents : List String) (body : Json) (m : String),
      embed_documents documents body = .error (.ProviderError m) →
      decodeEmbeddingResponse body = none ∧
        decodeApiErrorResponse body = some ⟨m⟩) ∧
    (∀ (body : Json) (m : String),
      completion_result body = some (.error (.ProviderError m)) →
      decodeCompletionResponse body = none ∧
        decodeApiErrorResponse body = some ⟨m⟩) ∧
    (∀ m : String,
      EmbeddingError.ResponseParseError ≠ EmbeddingError.ProviderError m ∧
      CompletionError.ResponseParseError ≠ CompletionError.ProviderError m) := by
  refine ⟨?_, ?_, ?_, ?_, ?_⟩
  · intro documents body h1 h2
    simp [embed_documents, decodeApiResponse, h1, h2]
  · intro body h1 h2
    simp [completion_result, decodeApiResponse, h1, h2]
  · intro documents body m h
    cases he : decodeEmbeddingResponse body with
    | some t =>
      simp only [embed_documents, decodeApiResponse, he] at h
      simp only [embed_documents_result] at h
      split at h <;> simp_all
    | none =>
      cases hee : decodeApiErrorResponse body with
      | none => simp [embed_documents, decodeApiResponse, he, hee] at h
      | some e =>
        simp only [embed_documents, decodeApiResponse, he, hee] at h
        refine ⟨rfl, ?_⟩
        cases e
        simp_all [embed_documents_result]
  · intro body m h
    cases he : decodeCompletionResponse body with
    | some t =>
      simp only [completion_result, decodeApiResponse, he] at h
      cases hcf : completionResponseFrom t <;> simp [hcf] at h
    | none =>
      cases hee : decodeApiErrorResponse body with
      | none => simp [completion_result, decodeApiResponse, he, hee] at h
      | some e =>
        simp only [completion_result, decodeApiResponse, he, hee] at h
        refine ⟨rfl, ?_⟩
        cases e
        simp_all
  · intro m
    exact ⟨fun h => EmbeddingError.noConfusion h,
           fun h => CompletionError.noConfusion h⟩

/-- Claim C9 witness: the body `5` (a bare JSON number) matches neither
schema and both adapters classify it as a parse failure. -/
theorem c9_envelope_classification_witness :
    decodeEmbeddingResponse (Json.num 5) = none ∧
    decodeApiErrorResponse (Json.num 5) = none ∧
    embed_documents ["a"] (Json.num 5) = .error .ResponseParseError ∧
    completion_result (Json.num 5) = some (.error .ResponseParseError) :=
  ⟨rfl, rfl,
   c9_envelope_classification.1 ["a"] (Json.num 5) rfl rfl,
   c9_envelope_classification.2.1 (Json.num 5) rfl rfl⟩

end Cohere
